import Mathlib

/-!
Shallow embedding of the PCX laptop scraper (src/Exercise.py, src/PyScraper.py,
src/Scraper.py): the price normalizer, the listing extractor, the detail-page
specification extractor, and the merge pipeline, together with theorems about
the claims of the specification.

Modelling conventions:
* Python dicts are association lists with unique keys; item assignment
  overwrites in place, preserving insertion order.
* Python floats are modelled as exact rationals: every number the scraper
  builds comes from a decimal digit string, which is exact.
* Text processing is carried out over `List Char`; the regex character class
  `\d` of `re.sub` is modelled over the ASCII fragment of the alphabet.
* Network fetching (`requests.get` + `raise_for_status`) is an externally
  supplied function `String → Option Doc`; `none` models a raised error.
* bs4 trees are rose trees of element and text nodes; `find`, `find_all`,
  `select`, `select_one` walk descendants in document (preorder) order.
-/

/-- Python values stored in a scraped record: strings, numbers, and None. -/
inductive Val where
  | vstr (s : String)
  | vnum (q : ℚ)
  | vnone
  deriving DecidableEq

/-- Dict lookup (keys are unique in a Python dict, so first match suffices). -/
def dlookup {α : Type} : List (String × α) → String → Option α
  | [], _ => none
  | p :: d, k => if p.1 == k then some p.2 else dlookup d k

/-- Python dict item assignment `d[k] = v`: overwrite the existing entry in
place, keeping its position, otherwise append at the end. -/
def dinsert {α : Type} : List (String × α) → String → α → List (String × α)
  | [], k, v => [(k, v)]
  | p :: d, k, v => if p.1 == k then (k, v) :: d else p :: dinsert d k v

/-- Python `\x7b**a, **b\x7d`: all items of `a` in order, then the items of
`b`, where a later write to an existing key overwrites its value. -/
def dmerge {α : Type} (a b : List (String × α)) : List (String × α) :=
  b.foldl (fun acc p => dinsert acc p.1 p.2) a

/-- A scraped record: the dict for one product. -/
abbrev Rec := List (String × Val)

/-! ### Character-level string helpers (Python str methods) -/

/-- Boolean prefix test on character lists. -/
def listPref : List Char → List Char → Bool
  | [], _ => true
  | _ :: _, [] => false
  | p :: ps, c :: cs => p == c && listPref ps cs

/-- Substring occurrence test on character lists. -/
def hasSub (pat : List Char) : List Char → Bool
  | [] => pat.isEmpty
  | c :: cs => listPref pat (c :: cs) || hasSub pat cs

/-- Python `pat in s` on strings. -/
def strContains (s pat : String) : Bool := hasSub pat.toList s.toList

/-- Python `str.strip()` with no argument: drop whitespace from both ends. -/
def trimChars (l : List Char) : List Char :=
  ((l.dropWhile Char.isWhitespace).reverse.dropWhile Char.isWhitespace).reverse

/-- Python `str.strip()` lifted to strings. -/
def pyStrip (s : String) : String := ⟨trimChars s.toList⟩

/-- Python `str.lower()` (ASCII case folding, enough for the patterns used). -/
def pyLower (s : String) : String := ⟨s.toList.map Char.toLower⟩

/-- Split a character list at every occurrence of one separator character. -/
def splitOnChar (sep : Char) : List Char → List (List Char)
  | [] => [[]]
  | c :: cs =>
      if c == sep then [] :: splitOnChar sep cs
      else
        match splitOnChar sep cs with
        | [] => [[c]]
        | h :: t => (c :: h) :: t

/-- Python `str.splitlines()` for newline-separated text (the separator the
extractor itself inserts). -/
def splitLines (s : String) : List String :=
  (splitOnChar '\n' s.toList).map String.mk

/-- Python `sep.join(parts)` on character lists. -/
def joinWithChar (sep : Char) : List (List Char) → List Char
  | [] => []
  | [l] => l
  | l :: ls => l ++ sep :: joinWithChar sep ls

/-- Python `s.startswith(pre)`. -/
def strStarts (s pre : String) : Bool := listPref pre.toList s.toList

/-! ### Price normalizer: parse_price (identical in all three source files) -/

/-- The substitution `re.sub(r"[^\d\.]", "", s)`: keep ASCII digits and the
decimal point, drop every other character. -/
def stripNonDigitDot (s : String) : List Char :=
  s.toList.filter (fun c => c.isDigit || c == '.')

/-- Decimal value of a digit list. -/
def digitsValN (l : List Char) : ℕ :=
  l.foldl (fun acc c => acc * 10 + (c.toNat - 48)) 0

/-- Python `float()` restricted to its possible arguments here, strings of
ASCII digits and dots: valid iff there is at most one dot and at least one
digit, in which case the value is the usual base-10 decimal reading;
otherwise `float` raises ValueError, modelled as `none`. -/
def pyFloatDigitsDots (l : List Char) : Option ℚ :=
  match splitOnChar '.' l with
  | [intp] => if intp.isEmpty then none else some (digitsValN intp : ℚ)
  | [intp, frac] =>
      if intp.isEmpty && frac.isEmpty then none
      else some ((digitsValN intp : ℚ) + (digitsValN frac : ℚ) / 10 ^ frac.length)
  | _ => none

/-- `parse_price` from Exercise.py (same body in PyScraper.py, Scraper.py):
falsy input (None or empty) gives None, otherwise strip every character that
is no digit and no dot and feed the remainder to `float`, catching errors. -/
def parse_price : Option String → Option ℚ
  | none => none
  | some s => if s == "" then none else pyFloatDigitsDots (stripNonDigitDot s)

/-! ### The bs4 document model -/

/-- An HTML node as surfaced by BeautifulSoup: an element with tag name,
attributes and children, or a text node (NavigableString). -/
inductive Node where
  | elem (tag : String) (attrs : List (String × String)) (children : List Node)
  | text (s : String)

/-- A parsed page: the top-level nodes of the document. -/
abbrev Doc := List Node

def Node.tagOf : Node → Option String
  | .elem t _ _ => some t
  | .text _ => none

def Node.textOf : Node → Option String
  | .text s => some s
  | .elem _ _ _ => none

def isTag (t : String) (n : Node) : Bool := n.tagOf == some t

mutual
/-- Document-order (preorder) traversal: the node, then its subtrees. -/
def preorder : Node → List Node
  | .text s => [.text s]
  | .elem t a cs => .elem t a cs :: preorderList cs
def preorderList : List Node → List Node
  | [] => []
  | n :: ns => preorder n ++ preorderList ns
end

/-- All descendants of a node, the node itself excluded: the scope searched
by `tag.find(...)` and `tag.select(...)` in bs4. -/
def descendants : Node → List Node
  | .text _ => []
  | .elem _ _ cs => preorderList cs

mutual
/-- All text fragments below a node, in document order. -/
def textsOf : Node → List String
  | .text s => [s]
  | .elem _ _ cs => textsOfList cs
def textsOfList : List Node → List String
  | [] => []
  | n :: ns => textsOf n ++ textsOfList ns
end

/-- `get_text()` with default arguments: plain concatenation of fragments. -/
def getTextRaw (n : Node) : String :=
  ⟨((textsOf n).map String.toList).flatten⟩

/-- `get_text(strip=True)`: each fragment stripped, then concatenated. -/
def getTextStrip (n : Node) : String :=
  ⟨((textsOf n).map (fun s => trimChars s.toList)).flatten⟩

/-- `get_text(separator=sep, strip=True)` given the fragment list: stripped
nonempty fragments joined with the separator character. -/
def joinStripped (sep : Char) (texts : List String) : String :=
  ⟨joinWithChar sep (((texts.map (fun s => trimChars s.toList)).filter (fun l => !l.isEmpty)))⟩

/-- Attribute access on an element. -/
def attrOf (n : Node) (k : String) : Option String :=
  match n with
  | .elem _ attrs _ => dlookup attrs k
  | .text _ => none

/-- The class list of an element, as bs4 splits the class attribute. -/
def classesOf (n : Node) : List String :=
  match attrOf n "class" with
  | some s => (splitOnChar ' ' s.toList).map String.mk
  | none => []

/-- The CSS selector forms the scraper uses. -/
inductive Sel where
  | tagClass (tag cls : String)
  | onlyClass (cls : String)
  | tagId (tag idv : String)
  | onlyTag (tag : String)

def selMatches (sel : Sel) (n : Node) : Bool :=
  match sel with
  | .tagClass t c => n.tagOf == some t && (classesOf n).contains c
  | .onlyClass c => n.tagOf.isSome && (classesOf n).contains c
  | .onlyTag t => n.tagOf == some t
  | .tagId t i => n.tagOf == some t && attrOf n "id" == some i

def selAny (sels : List Sel) (n : Node) : Bool := sels.any (fun s => selMatches s n)

/-- `soup.select(...)` with a selector group: all matching elements of the
document in document order. -/
def selectDoc (sels : List Sel) (doc : Doc) : List Node :=
  (preorderList doc).filter (selAny sels)

/-- `soup.select_one(...)`: the first match in document order. -/
def selectOneDoc (sels : List Sel) (doc : Doc) : Option Node :=
  (preorderList doc).find? (selAny sels)

/-- `tag.select_one(...)`: the first matching descendant. -/
def selectOneIn (sels : List Sel) (n : Node) : Option Node :=
  (descendants n).find? (selAny sels)

/-- `tag.find(name)`: the first descendant element with the given tag name;
the tag itself is never a candidate. -/
def pcFind (t : String) (n : Node) : Option Node :=
  (descendants n).find? (isTag t)

/-- `soup.find_all(name)`: every element of the document with that tag. -/
def findAllTag (t : String) (doc : Doc) : List Node :=
  (preorderList doc).filter (isTag t)

/-- A candidate node paired with the document context the scraper consults:
`laterSibs` are the following siblings (for `find_next_sibling`) and
`nextNodes` is every node after the opening of this node in document order,
descendants included (for `find_next`). -/
structure Ctx where
  node : Node
  laterSibs : List Node
  nextNodes : List Node

mutual
def nodeCtxs : Node → List Node → List Node → List Ctx
  | .text s, sibs, rest => [⟨.text s, sibs, preorderList sibs ++ rest⟩]
  | .elem t a cs, sibs, rest =>
      ⟨.elem t a cs, sibs, preorderList cs ++ (preorderList sibs ++ rest)⟩ ::
        listCtxs cs (preorderList sibs ++ rest)
def listCtxs : List Node → List Node → List Ctx
  | [], _ => []
  | n :: ns, rest => nodeCtxs n ns rest ++ listCtxs ns rest
end

/-- Every node of the document with its context, in document order. -/
def docCtxs (doc : Doc) : List Ctx := listCtxs doc []

mutual
/-- Every node of a subtree paired with its parent (the parent of a
top-level node is the soup object itself, represented by `none`). -/
def withParent : Option Node → Node → List (Node × Option Node)
  | p, .text s => [(.text s, p)]
  | p, .elem t a cs => (.elem t a cs, p) :: withParentList (some (.elem t a cs)) cs
def withParentList : Option Node → List Node → List (Node × Option Node)
  | _, [] => []
  | p, n :: ns => withParent p n ++ withParentList p ns
end

def docWithParent (doc : Doc) : List (Node × Option Node) := withParentList none doc

/-! ### Shared scraper constants and the detail extractor core -/

def primarySels : List Sel :=
  [.tagClass "div" "product-card", .tagClass "li" "product-item", .tagClass "div" "grid-product"]

def priceSels : List Sel :=
  [.onlyClass "price", .onlyClass "product-price", .onlyClass "money"]

def headingSels : List Sel :=
  [.onlyTag "h4", .onlyTag "h3", .onlyTag "h2", .onlyTag "strong"]

def fallbackSels : List Sel :=
  [.tagId "div" "ProductTabs-specification", .tagClass "div" "product-specifications",
   .tagClass "div" "tab-content"]

def BASE_URL : String := "https://pcx.com.ph"

/-- Python truthiness of a bs4 node: a Tag is truthy iff it has contents
(Tag defines a length, so an empty element is falsy) and a NavigableString
is truthy iff it is nonempty. -/
def nodeTruthy : Node → Bool
  | .elem _ _ cs => !cs.isEmpty
  | .text s => s != ""

/-- Python `x or y` over optional nodes: `y` whenever `x` is falsy. -/
def orNode (x y : Option Node) : Option Node :=
  match x with
  | some t => if nodeTruthy t then some t else y
  | none => y

/-- `name_tag = pc.find("a") or pc.find("h3")` (both listing extractors). -/
def nameTagOf (pc : Node) : Option Node :=
  orNode (pcFind "a" pc) (pcFind "h3" pc)

/-- The specification block: a node of the page, or the whole document when
the matched heading sits at top level (its bs4 parent is the soup object). -/
inductive Block where
  | node (n : Node)
  | wholeDoc

/-- The loop test of the heading scan: a heading-level element whose raw text
contains the substring `Specification` (case-sensitive, as in the source). -/
def isSpecHeading (n : Node) : Bool :=
  selAny headingSels n && strContains (getTextRaw n) "Specification"

/-- The first matching heading of `soup.select("h4, h3, h2, strong")`,
paired with its parent. -/
def specHeadingHit (doc : Doc) : Option (Node × Option Node) :=
  (docWithParent doc).find? (fun p => isSpecHeading p.1)

def parentBlock : Option Node → Block
  | some p => .node p
  | none => .wholeDoc

/-- Location of `spec_section` in scrape_spec_page: the parent of the first
heading containing `Specification`, else the first match of the fixed
fallback container selectors, else nothing. -/
def specSection (doc : Doc) : Option Block :=
  match specHeadingHit doc with
  | some hp => some (parentBlock hp.2)
  | none =>
      match selectOneDoc fallbackSels doc with
      | some n => some (.node n)
      | none => none

/-- The text fragments of a located block. -/
def blockTexts (doc : Doc) : Block → List String
  | .node n => textsOf n
  | .wholeDoc => textsOfList doc

/-- `spec_section.get_text(separator="\n", strip=True)` split into lines;
no lines when no block was located. -/
def blockLines (doc : Doc) : List String :=
  match specSection doc with
  | none => []
  | some b => splitLines (joinStripped '\n' (blockTexts doc b))

/-- `line.split(":", 1)` guarded by `":" in line`, both halves stripped. -/
def splitFirstColon (line : String) : Option (String × String) :=
  match splitOnChar ':' line.toList with
  | [] => none
  | [_] => none
  | k :: rest => some (⟨trimChars k⟩, ⟨trimChars (joinWithChar ':' rest)⟩)

/-- One iteration of the spec-line loop: a line with a colon inserts its
trimmed key/value pair, a line without a colon contributes nothing. -/
def specStep (acc : Rec) (line : String) : Rec :=
  match splitFirstColon line with
  | none => acc
  | some kv => dinsert acc kv.1 (.vstr kv.2)

/-- The spec-line parsing loop of scrape_spec_page. -/
def parseSpecLines (lines : List String) : Rec := lines.foldl specStep []

/-- The mapping produced by block location plus line parsing alone. -/
def blockSpecs (doc : Doc) : Rec := parseSpecLines (blockLines doc)

/-- `soup.find(text=re.compile(pat, re.IGNORECASE))`: the first text node in
document order whose content contains the pattern case-insensitively,
returned as its full string. -/
def firstTextMatch (doc : Doc) (pat : String) : Option String :=
  ((preorderList doc).filterMap Node.textOf).find? (fun s => strContains (pyLower s) pat)

/-- Outcome of one whole run of a driver. -/
inductive RunOutcome where
  | fatal (msg : String)
  | success (csv : List Rec)
  deriving DecidableEq

/-! ### Exercise.py: listing extractor, detail extractor, pipeline, driver -/

namespace Exercise

/-- The per-card body of scrape_laptops_list in Exercise.py: name from the
first `a` descendant or else the first `h3` descendant; link from the href
of that element, site-relative paths prefixed with the base origin; price
from the first price-hint descendant or else the first following sibling
text containing the peso sign; quick spec snippet from the first following
text node containing SPECIFICATION case-insensitively. -/
def extractCard (c : Ctx) : Rec :=
  let nameTag := nameTagOf c.node
  let name : Val :=
    match nameTag with
    | some t => if nodeTruthy t then .vstr (getTextStrip t) else .vnone
    | none => .vnone
  let link0 : Option String :=
    match nameTag with
    | some t => if nodeTruthy t then attrOf t "href" else none
    | none => none
  let link : Val :=
    match link0 with
    | some l => if l != "" && strStarts l "/" then .vstr (BASE_URL ++ l) else .vstr l
    | none => .vnone
  let price : Option String :=
    match selectOneIn priceSels c.node with
    | some el =>
        if nodeTruthy el then some (getTextStrip el)
        else
          match (c.laterSibs.filterMap Node.textOf).find? (fun s => strContains s "₱") with
          | some s => some (pyStrip s)
          | none => none
    | none =>
        match (c.laterSibs.filterMap Node.textOf).find? (fun s => strContains s "₱") with
        | some s => some (pyStrip s)
        | none => none
  let priceVal : Val :=
    match parse_price price with
    | some q => .vnum q
    | none => .vnone
  let snippet : String :=
    match (c.nextNodes.filterMap Node.textOf).find? (fun s => strContains (pyLower s) "specification") with
    | some s => pyStrip s
    | none => ""
  [("name", name), ("link", link), ("price_php", priceVal), ("quick_spec", .vstr snippet)]

/-- The product cards matched by the primary structural selectors. -/
def primaryCtxs (doc : Doc) : List Ctx :=
  (docCtxs doc).filter (fun c => selAny primarySels c.node)

/-- The fallback candidates: every h3 element of the document. -/
def h3Ctxs (doc : Doc) : List Ctx :=
  (docCtxs doc).filter (fun c => isTag "h3" c.node)

/-- Candidate selection of scrape_laptops_list: primary card selectors
first, every h3 heading only when the primary stage matched nothing. -/
def cardCtxs (doc : Doc) : List Ctx :=
  let primary := primaryCtxs doc
  if primary.isEmpty then h3Ctxs doc else primary

/-- scrape_laptops_list of Exercise.py on already-fetched listing markup. -/
def scrape_laptops_list (doc : Doc) : List Rec :=
  (cardCtxs doc).map extractCard

/-- The pure part of scrape_spec_page after a successful fetch: block
location and line parsing, then the whole-document Battery scan, then the
whole-document Weight scan, each recording the full trimmed text node. -/
def extract_specs (doc : Doc) : Rec :=
  let s1 := blockSpecs doc
  let s2 :=
    match firstTextMatch doc "battery" with
    | some t => dinsert s1 "Battery" (.vstr (pyStrip t))
    | none => s1
  match firstTextMatch doc "weight" with
  | some t => dinsert s2 "Weight" (.vstr (pyStrip t))
  | none => s2

/-- scrape_spec_page of Exercise.py with the page fetch supplied from
outside: a record with a falsy or non-string link contributes an empty
mapping, a failed fetch contributes an empty mapping, otherwise the detail
page is parsed by `extract_specs`. -/
def scrape_spec_page (fetch : String → Option Doc) (laptop : Rec) : Rec :=
  match dlookup laptop "link" with
  | some (.vstr url) =>
      if url == "" then []
      else
        match fetch url with
        | some doc => extract_specs doc
        | none => []
  | _ => []

/-- merge_data of Exercise.py: for each listing record in order, fetch and
parse its detail page and lay the detail mapping over the listing record. -/
def merge_data (fetch : String → Option Doc) (listings : List Rec) : List Rec :=
  listings.map (fun l => dmerge l (scrape_spec_page fetch l))

/-- main() of Exercise.py on already-fetched listing markup: scrape the
listing, merge details, write the CSV; there is no zero-listing check, so
the run always ends in success with whatever dataset was assembled. -/
def main_model (fetch : String → Option Doc) (doc : Doc) : RunOutcome :=
  .success (merge_data fetch (scrape_laptops_list doc))

end Exercise

/-! ### PyScraper.py: the GUI variant of the same pipeline -/

namespace PyScraper

/-- The per-card body of scrape_laptops_list in PyScraper.py: as in
Exercise.py but with no sibling price fallback and no quick spec snippet. -/
def extractCard (pc : Node) : Rec :=
  let nameTag := nameTagOf pc
  let name : Val :=
    match nameTag with
    | some t => if nodeTruthy t then .vstr (getTextStrip t) else .vnone
    | none => .vnone
  let link0 : Option String :=
    match nameTag with
    | some t => if nodeTruthy t then attrOf t "href" else none
    | none => none
  let link : Val :=
    match link0 with
    | some l => if l != "" && strStarts l "/" then .vstr (BASE_URL ++ l) else .vstr l
    | none => .vnone
  let price : Option String :=
    match selectOneIn priceSels pc with
    | some el => if nodeTruthy el then some (getTextStrip el) else none
    | none => none
  let priceVal : Val :=
    match parse_price price with
    | some q => .vnum q
    | none => .vnone
  [("name", name), ("link", link), ("price_php", priceVal)]

/-- Candidate cards: primary structural selectors, falling back to every h3
of the document when nothing matched. -/
def cards (doc : Doc) : List Node :=
  let primary := selectDoc primarySels doc
  if primary.isEmpty then findAllTag "h3" doc else primary

/-- scrape_laptops_list of PyScraper.py on already-fetched markup. -/
def scrape_laptops_list (doc : Doc) : List Rec :=
  (cards doc).map extractCard

/-- The pure part of scrape_spec_page of PyScraper.py: block location and
line parsing only — this variant has no Battery/Weight scans. -/
def extract_specs (doc : Doc) : Rec := blockSpecs doc

/-- scrape_spec_page of PyScraper.py with the fetch supplied from outside. -/
def scrape_spec_page (fetch : String → Option Doc) (laptop : Rec) : Rec :=
  match dlookup laptop "link" with
  | some (.vstr url) =>
      if url == "" then []
      else
        match fetch url with
        | some doc => extract_specs doc
        | none => []
  | _ => []

/-- merge_data of PyScraper.py. -/
def merge_data (fetch : String → Option Doc) (listings : List Rec) : List Rec :=
  listings.map (fun l => dmerge l (scrape_spec_page fetch l))

/-- ScraperGUI.run_scraper on already-fetched listing markup: when the
listing stage yields no records a ValueError is raised and reported as a
fatal error, otherwise details are merged and the CSV is written. -/
def run_scraper (fetch : String → Option Doc) (doc : Doc) : RunOutcome :=
  let listings := scrape_laptops_list doc
  if listings.isEmpty then .fatal "No products found on this page."
  else .success (merge_data fetch listings)

end PyScraper


/-! ### Concrete pages and records used in witnesses and counterexamples -/

/-- A listing record as built by the listing stage. -/
def sampleListing : Rec :=
  [("name", .vstr "Acer Aspire A514"),
   ("link", .vstr "https://pcx.com.ph/products/acer-a514"),
   ("price_php", .vnum 26999)]

/-- A detail mapping whose spec block happened to contain a line keyed
`name`. -/
def sampleDetail : Rec := [("name", .vstr "Aspire A514 Spec Sheet")]

/-- A listing page with no product cards and no h3 headings. -/
def noListingDoc : Doc := [.elem "body" [] [.text "nothing to see"]]

/-- A fallback-mode card: a bare h3 heading with no anchor inside. -/
def bareHeadingCard : Node := .elem "h3" [] [.text "ACER Aspire 5"]

/-- A listing page whose only candidate card is the bare heading. -/
def bareHeadingDoc : Doc := [bareHeadingCard]

/-- An anchor element, for the name-rule witness. -/
def anchorNode : Node := .elem "a" [("href", "/products/x")] [.text "Laptop X"]

/-- A card containing that anchor. -/
def anchorCtx : Ctx := ⟨.elem "div" [] [anchorNode], [], []⟩

/-- A heading reading SPECIFICATION in capitals only. -/
def upperHeading : Node := .elem "h2" [] [.text "SPECIFICATION"]

/-- A detail page with only that capitalized heading and no fallback
container. -/
def upperDoc : Doc := [.elem "div" [] [upperHeading, .text "Battery Life: 10 hours"]]

/-- A well-formed Specification heading. -/
def specH3 : Node := .elem "h3" [] [.text "Specification"]

/-- A container holding the heading and one spec line. -/
def specDiv : Node := .elem "div" [("class", "info")] [specH3, .text "CPU: Intel i5"]

/-- A detail page built around `specDiv`. -/
def specDoc : Doc := [specDiv]

/-- A listing page with two h3 headings and no primary cards. -/
def twoHeadingsDoc : Doc :=
  [.elem "h3" [] [.elem "a" [("href", "/products/a")] [.text "Laptop A"]],
   .elem "div" [] [.elem "h3" [] [.text "Laptop B"]]]

/-- A Specification heading for the Battery/Weight page. -/
def batteryH2 : Node := .elem "h2" [] [.text "Specification"]

/-- A detail page whose spec block has Battery and Weight lines, which are
also the first matching text nodes of the whole-document scans. -/
def batteryDoc : Doc :=
  [.elem "div" [] [batteryH2, .text "Battery: 56 Wh", .text "Weight: 1.4 kg"]]

/-- Five listing records, the third pointing at a URL whose fetch fails. -/
def fiveListings : List Rec :=
  [[("name", .vstr "L1"), ("link", .vstr "https://pcx.com.ph/p/1"), ("price_php", .vnone)],
   [("name", .vstr "L2"), ("link", .vstr "https://pcx.com.ph/p/2"), ("price_php", .vnone)],
   [("name", .vstr "L3"), ("link", .vstr "https://pcx.com.ph/p/3"), ("price_php", .vnone)],
   [("name", .vstr "L4"), ("link", .vstr "https://pcx.com.ph/p/4"), ("price_php", .vnone)],
   [("name", .vstr "L5"), ("link", .vstr "https://pcx.com.ph/p/5"), ("price_php", .vnone)]]

/-- The detail page served for the successful fetches. -/
def detailPage : Doc := [.elem "div" [("class", "tab-content")] [.text "RAM: 8GB"]]

/-- A fetch that fails exactly on the third listing URL. -/
def flakyFetch : String → Option Doc :=
  fun url => if url == "https://pcx.com.ph/p/3" then none else some detailPage

/-! ### Helper lemmas: splitOnChar and the float parser -/

theorem splitOnChar_ne_nil (sep : Char) (l : List Char) : splitOnChar sep l ≠ [] := by
  induction l with
  | nil => simp [splitOnChar]
  | cons c cs ih =>
      by_cases h : c = sep
      · subst h
        simp [splitOnChar]
      · have hbe : (c == sep) = false := beq_eq_false_iff_ne.mpr h
        cases hsp : splitOnChar sep cs with
        | nil => exact absurd hsp ih
        | cons a t => simp [splitOnChar, hbe, hsp]

theorem splitOnChar_length (sep : Char) (l : List Char) :
    (splitOnChar sep l).length = l.count sep + 1 := by
  induction l with
  | nil => simp [splitOnChar]
  | cons c cs ih =>
      by_cases h : c = sep
      · subst h
        have e : splitOnChar c (c :: cs) = [] :: splitOnChar c cs := by
          simp [splitOnChar]
        rw [e, List.length_cons, ih, List.count_cons_self]
      · have hbe : (c == sep) = false := beq_eq_false_iff_ne.mpr h
        cases hsp : splitOnChar sep cs with
        | nil => exact absurd hsp (splitOnChar_ne_nil sep cs)
        | cons a t =>
            have e : splitOnChar sep (c :: cs) = (c :: a) :: t := by
              simp [splitOnChar, hbe, hsp]
            have ih' := ih
            rw [hsp, List.length_cons] at ih'
            rw [e, List.count_cons_of_ne (Ne.symm h), List.length_cons]
            omega

theorem splitOnChar_of_count_zero (sep : Char) (l : List Char) (h : l.count sep = 0) :
    splitOnChar sep l = [l] := by
  induction l with
  | nil => rfl
  | cons c cs ih =>
      have hc : ¬ c = sep := by
        intro he
        subst he
        rw [List.count_cons_self] at h
        omega
      have hcs : cs.count sep = 0 := by
        rw [List.count_cons_of_ne (Ne.symm hc)] at h
        exact h
      have hbe : (c == sep) = false := beq_eq_false_iff_ne.mpr hc
      simp [splitOnChar, hbe, ih hcs]

theorem splitOnChar_of_count_one (sep : Char) (l : List Char) (h : l.count sep = 1) :
    ∃ a b, splitOnChar sep l = [a, b] ∧ l = a ++ sep :: b ∧
      a.count sep = 0 ∧ b.count sep = 0 := by
  induction l with
  | nil => simp at h
  | cons c cs ih =>
      by_cases hc : c = sep
      · subst hc
        have hcs : cs.count c = 0 := by
          rw [List.count_cons_self] at h
          omega
        refine ⟨[], cs, ?_, by simp, by simp, hcs⟩
        simp [splitOnChar, splitOnChar_of_count_zero c cs hcs]
      · have hcs : cs.count sep = 1 := by
          rw [List.count_cons_of_ne (Ne.symm hc)] at h
          exact h
        obtain ⟨a, b, hsp, hl, ha, hb⟩ := ih hcs
        have hbe : (c == sep) = false := beq_eq_false_iff_ne.mpr hc
        refine ⟨c :: a, b, ?_, by simp [hl], ?_, hb⟩
        · simp [splitOnChar, hbe, hsp]
        · rw [List.count_cons_of_ne (Ne.symm hc)]
          exact ha

theorem pyFloat_nonneg (l : List Char) (q : ℚ) (h : pyFloatDigitsDots l = some q) :
    0 ≤ q := by
  unfold pyFloatDigitsDots at h
  split at h
  · split at h
    · exact absurd h (by simp)
    · injection h with h2
      rw [← h2]
      positivity
  · split at h
    · exact absurd h (by simp)
    · injection h with h2
      rw [← h2]
      positivity
  · exact absurd h (by simp)

theorem pyFloat_none_iff (l : List Char) (hl : ∀ c ∈ l, c.isDigit ∨ c = '.') :
    pyFloatDigitsDots l = none ↔
      (l.any Char.isDigit = false ∨ 2 ≤ l.count '.') := by
  rcases hcnt : l.count '.' with _ | n
  · -- no dot survives: the list is all digits
    have hnodot : '.' ∉ l := List.count_eq_zero.mp hcnt
    have hdig : ∀ c ∈ l, c.isDigit := by
      intro c hc
      rcases hl c hc with h | h
      · exact h
      · exact absurd (h ▸ hc) hnodot
    have e : pyFloatDigitsDots l = if l.isEmpty then none else some ((digitsValN l : ℚ)) := by
      unfold pyFloatDigitsDots
      rw [splitOnChar_of_count_zero '.' l hcnt]
    constructor
    · intro h
      rw [e] at h
      by_cases he : l.isEmpty = true
      · left
        rw [List.isEmpty_iff.mp he]
        rfl
      · rw [if_neg he] at h
        exact absurd h (by simp)
    · intro h
      rcases h with h | h
      · cases l with
        | nil => rw [e]; rfl
        | cons c cs =>
            exfalso
            rw [List.any_eq_false] at h
            exact (h c (by simp)) (hdig c (by simp))
      · omega
  · rcases n with _ | m
    · -- exactly one dot survives
      obtain ⟨a, b, hsp, hl2, ha, hb⟩ := splitOnChar_of_count_one '.' l hcnt
      have hdiga : ∀ c ∈ a, c.isDigit := by
        intro c hc
        rcases hl c (by rw [hl2]; exact List.mem_append_left _ hc) with h | h
        · exact h
        · exact absurd (h ▸ hc) (List.count_eq_zero.mp ha)
      have hdigb : ∀ c ∈ b, c.isDigit := by
        intro c hc
        rcases hl c (by
          rw [hl2]
          exact List.mem_append_right _ (List.mem_cons_of_mem _ hc)) with h | h
        · exact h
        · exact absurd (h ▸ hc) (List.count_eq_zero.mp hb)
      have e : pyFloatDigitsDots l =
          if a.isEmpty && b.isEmpty then none
          else some ((digitsValN a : ℚ) + (digitsValN b : ℚ) / 10 ^ b.length) := by
        unfold pyFloatDigitsDots
        rw [hsp]
      constructor
      · intro h
        rw [e] at h
        by_cases hcond : (a.isEmpty && b.isEmpty) = true
        · left
          obtain ⟨ha1, hb1⟩ := Bool.and_eq_true_iff.mp hcond
          rw [hl2, List.isEmpty_iff.mp ha1, List.isEmpty_iff.mp hb1]
          decide
        · rw [if_neg hcond] at h
          exact absurd h (by simp)
      · intro h
        rcases h with h | h
        · rw [List.any_eq_false] at h
          have ha0 : a = [] := by
            cases a with
            | nil => rfl
            | cons c cs =>
                exfalso
                refine (h c ?_) (hdiga c (by simp))
                rw [hl2]
                exact List.mem_append_left _ (by simp)
          have hb0 : b = [] := by
            cases b with
            | nil => rfl
            | cons c cs =>
                exfalso
                refine (h c ?_) (hdigb c (by simp))
                rw [hl2]
                exact List.mem_append_right _ (List.mem_cons_of_mem _ (by simp))
          rw [e, ha0, hb0]
          rfl
        · omega
    · -- at least two dots survive
      have hlen : (splitOnChar '.' l).length = m + 3 := by
        rw [splitOnChar_length, hcnt]
      have e : pyFloatDigitsDots l = none := by
        unfold pyFloatDigitsDots
        rcases hsp : splitOnChar '.' l with _ | ⟨p1, _ | ⟨p2, _ | ⟨p3, t⟩⟩⟩
        · exact absurd hsp (splitOnChar_ne_nil '.' l)
        · rw [hsp] at hlen
          simp at hlen
        · rw [hsp] at hlen
          simp at hlen
        · rfl
      constructor
      · intro _
        right
        omega
      · intro _
        exact e

theorem stripNonDigitDot_mem (s : String) :
    ∀ c ∈ stripNonDigitDot s, c.isDigit ∨ c = '.' := by
  intro c hc
  unfold stripNonDigitDot at hc
  rw [List.mem_filter] at hc
  rcases hc with ⟨_, hc⟩
  rcases Bool.or_eq_true_iff.mp hc with h | h
  · exact Or.inl h
  · exact Or.inr (by simpa using h)

/-! ### Claim theorems: price normalizer -/

/-- Claim C1: the price normalizer maps an absent or empty input to absent;
otherwise it strips every character that is not an ASCII digit or a decimal
point and parses the remainder as a base-10 number, where an invalid
remainder (no digit survives, or at least two decimal points remain) gives
absent and never an exception; in particular the peso-formatted example
parses to 26999 and the listed absent cases hold. -/
theorem parse_price_contract (s : String) (h : s ≠ "") :
    parse_price none = none ∧
    parse_price (some "") = none ∧
    parse_price (some "Free") = none ∧
    parse_price (some "₱26,999.00") = some (26999 : ℚ) ∧
    (parse_price (some s) = none ↔
      ((stripNonDigitDot s).any Char.isDigit = false ∨
        2 ≤ (stripNonDigitDot s).count '.')) := by
  refine ⟨rfl, rfl, rfl, ?_, ?_⟩
  · have e1 : parse_price (some "₱26,999.00") =
        some (((26999 : ℕ) : ℚ) + ((0 : ℕ) : ℚ) / 10 ^ 2) := rfl
    rw [e1]
    norm_num
  · have hbe : (s == "") = false := beq_eq_false_iff_ne.mpr h
    have hx : ¬ ((s == "") = true) := by
      rw [hbe]
      simp
    have e2 : parse_price (some s) =
        if s == "" then none else pyFloatDigitsDots (stripNonDigitDot s) := rfl
    rw [e2, if_neg hx]
    exact pyFloat_none_iff _ (stripNonDigitDot_mem s)

/-- Witness for claim C1 at the concrete input "Free". -/
theorem parse_price_contract_witness :
    parse_price (some "₱26,999.00") = some (26999 : ℚ) ∧
    (parse_price (some "Free") = none ↔
      ((stripNonDigitDot "Free").any Char.isDigit = false ∨
        2 ≤ (stripNonDigitDot "Free").count '.')) := by
  have h := parse_price_contract "Free" (by decide)
  exact ⟨h.2.2.2.1, h.2.2.2.2⟩

/-- Claim C10: whenever the price normalizer returns a number at all, that
number is non-negative, because the stripping step removes minus signs with
every other non-digit non-dot character; the inputs "-100" and
"₱-1,000.00" give the positive magnitudes 100 and 1000. -/
theorem parse_price_nonneg (s : Option String) (q : ℚ) (h : parse_price s = some q) :
    0 ≤ q ∧
    parse_price (some "-100") = some (100 : ℚ) ∧
    parse_price (some "₱-1,000.00") = some (1000 : ℚ) := by
  refine ⟨?_, rfl, ?_⟩
  · cases s with
    | none => exact absurd h (by simp [parse_price])
    | some s =>
        have e2 : parse_price (some s) =
            if s == "" then none else pyFloatDigitsDots (stripNonDigitDot s) := rfl
        rw [e2] at h
        by_cases he : (s == "") = true
        · rw [if_pos he] at h
          exact absurd h (by simp)
        · rw [if_neg he] at h
          exact pyFloat_nonneg _ q h
  · have e1 : parse_price (some "₱-1,000.00") =
        some (((1000 : ℕ) : ℚ) + ((0 : ℕ) : ℚ) / 10 ^ 2) := rfl
    rw [e1]
    norm_num

/-- Witness for claim C10 at the concrete input "-100". -/
theorem parse_price_nonneg_witness :
    parse_price (some "-100") = some (100 : ℚ) ∧ 0 ≤ (100 : ℚ) :=
  ⟨rfl, (parse_price_nonneg (some "-100") 100 rfl).1⟩

/-! ### Helper lemmas: the dict model -/

theorem dlookup_dinsert {α : Type} (d : List (String × α)) (k : String) (v : α) (k' : String) :
    dlookup (dinsert d k v) k' = if k' = k then some v else dlookup d k' := by
  induction d with
  | nil =>
      by_cases h : k' = k
      · have hbe : (k == k') = true := beq_iff_eq.mpr h.symm
        simp [dinsert, dlookup, hbe, h]
      · have hbe : (k == k') = false := beq_eq_false_iff_ne.mpr (Ne.symm h)
        simp [dinsert, dlookup, hbe, h]
  | cons p d ih =>
      by_cases hp : p.1 = k
      · have hbe : (p.1 == k) = true := beq_iff_eq.mpr hp
        by_cases h : k' = k
        · have h2 : (k == k') = true := beq_iff_eq.mpr h.symm
          simp [dinsert, dlookup, hbe, h2, h]
        · have h1 : (k == k') = false := beq_eq_false_iff_ne.mpr (Ne.symm h)
          have h2 : (p.1 == k') = false := by rw [hp]; exact h1
          simp [dinsert, dlookup, hbe, h1, h2, h]
      · have hbe : (p.1 == k) = false := beq_eq_false_iff_ne.mpr hp
        by_cases hq : p.1 = k'
        · have h2 : (p.1 == k') = true := beq_iff_eq.mpr hq
          have h3 : ¬ k' = k := by
            rw [← hq]
            exact hp
          simp [dinsert, dlookup, hbe, h2, h3]
        · have h2 : (p.1 == k') = false := beq_eq_false_iff_ne.mpr hq
          simp [dinsert, dlookup, hbe, h2, ih]

theorem dlookup_eq_none {α : Type} (d : List (String × α)) (k : String)
    (h : k ∉ d.map Prod.fst) : dlookup d k = none := by
  induction d with
  | nil => rfl
  | cons p d ih =>
      rw [List.map_cons, List.mem_cons] at h
      push_neg at h
      obtain ⟨h1, h2⟩ := h
      have hbe : (p.1 == k) = false := beq_eq_false_iff_ne.mpr (fun he => h1 he.symm)
      simp [dlookup, hbe, ih h2]

theorem dlookup_dmerge {α : Type} (a b : List (String × α))
    (hb : (b.map Prod.fst).Nodup) (k : String) :
    dlookup (dmerge a b) k = (dlookup b k).or (dlookup a k) := by
  induction b generalizing a with
  | nil => simp [dmerge, dlookup]
  | cons p b ih =>
      rw [List.map_cons, List.nodup_cons] at hb
      obtain ⟨hp, hb'⟩ := hb
      have e : dmerge a (p :: b) = dmerge (dinsert a p.1 p.2) b := rfl
      rw [e, ih _ hb']
      by_cases h : k = p.1
      · have hnone : dlookup b k = none := by
          apply dlookup_eq_none
          rw [h]
          exact hp
        have hbe : (p.1 == k) = true := beq_iff_eq.mpr h.symm
        rw [hnone, dlookup_dinsert]
        simp [dlookup, hbe, h, Option.or]
      · have hbe : (p.1 == k) = false := beq_eq_false_iff_ne.mpr (fun he => h he.symm)
        rw [dlookup_dinsert]
        simp [dlookup, hbe, h]

theorem dmerge_nil {α : Type} (a : List (String × α)) : dmerge a [] = a := rfl

/-! ### Claim theorems: the merge step -/

/-- Counterexample to claim C2: the merge step `\x7b**l, **more\x7d` gives the
detail mapping precedence on every collision, including the reserved
identity field `name`, which the claim says is never overwritten. -/
theorem merge_overwrites_reserved_name :
    dlookup sampleListing "name" = some (.vstr "Acer Aspire A514") ∧
    dlookup (dmerge sampleListing sampleDetail) "name" =
      some (.vstr "Aspire A514 Spec Sheet") :=
  ⟨rfl, rfl⟩

/-- Claim C2, amended: when the detail mapping is merged over the listing
record, a detail key takes precedence on every collision with a listing key
of the same name; no key is exempt, so the reserved identity fields `name`,
`link` and `price_php` are overwritten like any other key. -/
theorem dmerge_last_writer_wins (l more : Rec)
    (h : (more.map Prod.fst).Nodup) (k : String) :
    dlookup (dmerge l more) k = (dlookup more k).or (dlookup l k) :=
  dlookup_dmerge l more h k

/-- Witness for the amended claim C2 at the concrete listing and detail
records, on the colliding key `name`. -/
theorem dmerge_last_writer_wins_witness :
    (sampleDetail.map Prod.fst).Nodup ∧
    dlookup (dmerge sampleListing sampleDetail) "name" =
      (dlookup sampleDetail "name").or (dlookup sampleListing "name") :=
  ⟨by decide, dmerge_last_writer_wins sampleListing sampleDetail (by decide) "name"⟩

/-! ### Claim theorems: spec-line parsing -/

theorem dlookup_foldl_specStep (lines : List String) (acc : Rec) (k : String) :
    dlookup (lines.foldl specStep acc) k =
      (((lines.filterMap splitFirstColon).reverse.find? (fun p => p.1 == k)).map
        (fun p => Val.vstr p.2)).or (dlookup acc k) := by
  induction lines generalizing acc with
  | nil => simp
  | cons line rest ih =>
      rw [List.foldl_cons, ih]
      cases hsp : splitFirstColon line with
      | none =>
          simp [specStep, hsp, List.filterMap_cons]
      | some kv =>
          rw [List.filterMap_cons]
          simp only [hsp]
          rw [List.reverse_cons, List.find?_append]
          cases hf : (rest.filterMap splitFirstColon).reverse.find? (fun p => p.1 == k) with
          | some p => simp [hf, Option.or]
          | none =>
              simp only [hf, Option.none_or, specStep, hsp]
              rw [dlookup_dinsert]
              by_cases h : k = kv.1
              · have hbe : (kv.1 == k) = true := beq_iff_eq.mpr h.symm
                simp [List.find?, hbe, h, Option.or]
              · have hbe : (kv.1 == k) = false := beq_eq_false_iff_ne.mpr (fun he => h he.symm)
                simp [List.find?, hbe, h, Option.or]

/-- Claim C9: every line of the extracted block text that contains a colon
is split at the first colon into a trimmed key and a trimmed value and
inserted into the mapping, so the final value under a key is the one from
the last line parsed to that key; a line without a colon contributes no
entry; the quoted Processor example parses as stated. -/
theorem spec_line_parsing :
    (∀ lines k, dlookup (parseSpecLines lines) k =
      ((lines.filterMap splitFirstColon).reverse.find? (fun p => p.1 == k)).map
        (fun p => Val.vstr p.2)) ∧
    (∀ doc, blockSpecs doc = parseSpecLines (blockLines doc)) ∧
    splitFirstColon "Processor: Intel Core i7-1255U" =
      some ("Processor", "Intel Core i7-1255U") ∧
    splitFirstColon "Lightweight design" = none ∧
    parseSpecLines ["Processor: Intel Core i7-1255U", "Lightweight design"] =
      [("Processor", .vstr "Intel Core i7-1255U")] := by
  refine ⟨?_, fun _ => rfl, rfl, rfl, rfl⟩
  intro lines k
  rw [parseSpecLines, dlookup_foldl_specStep]
  simp [dlookup]

/-! ### Claim theorems: pipeline coordinator -/

/-- Claim C4: the coordinator produces exactly one output record per listing
record, in listing order; a record whose detail stage contributes nothing
(no usable link, or a failed fetch) comes out exactly as the listing stage
built it, and no other record is affected, since each record is processed
independently. -/
theorem pipeline_per_record (fetch : String → Option Doc) (listings : List Rec)
    (i : ℕ) (l : Rec) (h : listings[i]? = some l) :
    (Exercise.merge_data fetch listings).length = listings.length ∧
    (Exercise.merge_data fetch listings)[i]? =
      some (dmerge l (Exercise.scrape_spec_page fetch l)) ∧
    (Exercise.scrape_spec_page fetch l = [] →
      (Exercise.merge_data fetch listings)[i]? = some l) ∧
    (dlookup l "link" = none ∨ dlookup l "link" = some .vnone →
      Exercise.scrape_spec_page fetch l = []) ∧
    (∀ url, dlookup l "link" = some (.vstr url) → fetch url = none →
      Exercise.scrape_spec_page fetch l = []) := by
  have hget : (Exercise.merge_data fetch listings)[i]? =
      some (dmerge l (Exercise.scrape_spec_page fetch l)) := by
    rw [Exercise.merge_data, List.getElem?_map, h]
    rfl
  refine ⟨by simp [Exercise.merge_data], hget, ?_, ?_, ?_⟩
  · intro he
    rw [hget, he, dmerge_nil]
  · intro hl
    rcases hl with hl | hl
    · simp [Exercise.scrape_spec_page, hl]
    · simp [Exercise.scrape_spec_page, hl]
  · intro url hu hf
    by_cases he : (url == "") = true
    · simp [Exercise.scrape_spec_page, hu, he]
    · simp [Exercise.scrape_spec_page, hu, he, hf]

/-- Witness for claim C4: five concrete listings where exactly the third
detail fetch fails; the pipeline still yields five records and the third
equals its listing record. -/
theorem pipeline_per_record_witness :
    (Exercise.merge_data flakyFetch fiveListings).length = 5 ∧
    (Exercise.merge_data flakyFetch fiveListings)[2]? =
      some [("name", Val.vstr "L3"), ("link", Val.vstr "https://pcx.com.ph/p/3"),
            ("price_php", Val.vnone)] := by
  have h := pipeline_per_record flakyFetch fiveListings 2
    [("name", Val.vstr "L3"), ("link", Val.vstr "https://pcx.com.ph/p/3"),
     ("price_php", Val.vnone)] rfl
  refine ⟨?_, h.2.2.1 rfl⟩
  rw [h.1]
  rfl

/-! ### Claim theorems: zero-candidate runs -/

/-- Counterexample to claim C3: on a listing page with zero candidate cards
and zero h3 headings, the Exercise.py driver reports nothing fatal; it
finishes successfully having written an empty dataset. -/
theorem empty_listing_not_fatal :
    Exercise.scrape_laptops_list noListingDoc = [] ∧
    Exercise.main_model (fun _ => none) noListingDoc = RunOutcome.success [] :=
  ⟨rfl, rfl⟩

/-- Claim C3, amended: only the GUI driver (ScraperGUI.run_scraper in
PyScraper.py) turns zero candidates into the fatal "No products found"
report; the plain script driver (main in Exercise.py) instead emits an
empty CSV and ends in success. -/
theorem gui_zero_candidates_fatal (fetch : String → Option Doc) (doc : Doc)
    (h1 : selectDoc primarySels doc = []) (h2 : findAllTag "h3" doc = []) :
    PyScraper.run_scraper fetch doc =
      RunOutcome.fatal "No products found on this page." := by
  have hc : PyScraper.cards doc = [] := by
    simp [PyScraper.cards, h1, h2]
  simp [PyScraper.run_scraper, PyScraper.scrape_laptops_list, hc]

/-- Witness for amended claim C3 at the concrete empty listing page. -/
theorem gui_zero_candidates_fatal_witness :
    PyScraper.run_scraper (fun _ => none) noListingDoc =
      RunOutcome.fatal "No products found on this page." :=
  gui_zero_candidates_fatal (fun _ => none) noListingDoc rfl rfl

/-! ### Helper lemmas: traversal order of the context and parent scans -/

mutual
theorem nodeCtxs_map_node (n : Node) (sibs rest : List Node) :
    (nodeCtxs n sibs rest).map Ctx.node = preorder n := by
  cases n with
  | text s => simp [nodeCtxs, preorder]
  | elem t a cs =>
      simp [nodeCtxs, preorder, listCtxs_map_node cs (preorderList sibs ++ rest)]
theorem listCtxs_map_node (ns rest : List Node) :
    (listCtxs ns rest).map Ctx.node = preorderList ns := by
  cases ns with
  | nil => rfl
  | cons n ns' =>
      simp [listCtxs, preorderList, nodeCtxs_map_node n ns' rest,
        listCtxs_map_node ns' rest]
end

mutual
theorem withParent_map_fst (p : Option Node) (n : Node) :
    (withParent p n).map Prod.fst = preorder n := by
  cases n with
  | text s => simp [withParent, preorder]
  | elem t a cs =>
      simp [withParent, preorder, withParentList_map_fst (some (.elem t a cs)) cs]
theorem withParentList_map_fst (p : Option Node) (ns : List Node) :
    (withParentList p ns).map Prod.fst = preorderList ns := by
  cases ns with
  | nil => rfl
  | cons n ns' =>
      simp [withParentList, preorderList, withParent_map_fst p n,
        withParentList_map_fst p ns']
end

/-! ### Claim theorems: specification block location -/

/-- Counterexample to claim C5: a heading reading SPECIFICATION in capitals
contains the marker case-insensitively, yet the heading scan, which tests
the case-sensitive substring `Specification`, does not match it, and with
no fallback container present no block is located at all. -/
theorem upper_heading_not_matched :
    strContains (pyLower (getTextRaw upperHeading)) "specification" = true ∧
    strContains (getTextRaw upperHeading) "Specification" = false ∧
    specSection upperDoc = none :=
  ⟨rfl, rfl, rfl⟩

/-- Claim C5, amended: the block scan walks the heading-level elements of
the document in document order and selects the parent of the first heading
whose text contains `Specification` as a case-sensitive substring (so
SPECIFICATION or specification do not match); only when no heading matches
is the block taken from the first match of the fallback container
selectors. -/
theorem spec_block_location (doc : Doc) :
    ((docWithParent doc).map Prod.fst = preorderList doc) ∧
    (∀ hp, specHeadingHit doc = some hp → specSection doc = some (parentBlock hp.2)) ∧
    (specHeadingHit doc = none →
      specSection doc = (selectOneDoc fallbackSels doc).map Block.node) := by
  refine ⟨withParentList_map_fst none doc, ?_, ?_⟩
  · intro hp h
    simp [specSection, h]
  · intro h
    simp only [specSection, h]
    cases hsel : selectOneDoc fallbackSels doc <;> simp [hsel]

/-- Witness for amended claim C5: on the well-formed page the heading scan
hits the h3 and the block is its parent container. -/
theorem spec_block_location_witness :
    specHeadingHit specDoc = some (specH3, some specDiv) ∧
    specSection specDoc = some (parentBlock (some specDiv)) :=
  ⟨rfl, (spec_block_location specDoc).2.1 (specH3, some specDiv) rfl⟩

/-! ### Claim theorems: card name extraction -/

/-- Counterexample to claim C6: in fallback mode a candidate card that is
itself a bare h3 heading with text but no anchor gets an absent name,
because the code searches for an `a` or `h3` among the descendants of the
card and never considers the card itself. -/
theorem bare_heading_card_name_absent :
    selectDoc primarySels bareHeadingDoc = [] ∧
    getTextStrip bareHeadingCard = "ACER Aspire 5" ∧
    pcFind "a" bareHeadingCard = none ∧
    Exercise.scrape_laptops_list bareHeadingDoc =
      [[("name", Val.vnone), ("link", Val.vnone), ("price_php", Val.vnone),
        ("quick_spec", Val.vstr "")]] :=
  ⟨rfl, rfl, rfl, rfl⟩

/-- Claim C6, amended: the extracted name is the stripped text of the first
`a` descendant of the card when that element exists and is nonempty, else
of the first `h3` descendant under the same rule, else absent — the card
itself is never a candidate, so a bare heading card without such
descendants has no name. -/
theorem card_name_rule (c : Ctx) :
    (∀ t, pcFind "a" c.node = some t → nodeTruthy t = true → nameTagOf c.node = some t) ∧
    (pcFind "a" c.node = none → nameTagOf c.node = pcFind "h3" c.node) ∧
    dlookup (Exercise.extractCard c) "name" =
      some (match nameTagOf c.node with
            | some t => if nodeTruthy t then Val.vstr (getTextStrip t) else Val.vnone
            | none => Val.vnone) := by
  refine ⟨?_, ?_, ?_⟩
  · intro t h ht
    simp [nameTagOf, orNode, h, ht]
  · intro h
    simp [nameTagOf, orNode, h]
  · cases hnt : nameTagOf c.node <;> simp [Exercise.extractCard, dlookup, hnt]

/-- Witness for amended claim C6 at a card holding one anchor. -/
theorem card_name_rule_witness :
    nameTagOf anchorCtx.node = some anchorNode ∧
    dlookup (Exercise.extractCard anchorCtx) "name" = some (Val.vstr "Laptop X") := by
  have h := card_name_rule anchorCtx
  refine ⟨h.1 anchorNode rfl rfl, ?_⟩
  rw [h.2.2]
  rfl

/-! ### Claim theorems: listing fallback -/

/-- Claim C7: when the primary card selectors match nothing, the extractor
takes every h3 heading of the document as one candidate, in document order,
and emits exactly one record per heading; the fallback stage runs only when
the primary stage yields zero candidates. -/
theorem listing_fallback_per_heading (doc : Doc) (h : Exercise.primaryCtxs doc = []) :
    Exercise.scrape_laptops_list doc = (Exercise.h3Ctxs doc).map Exercise.extractCard ∧
    (Exercise.h3Ctxs doc).map Ctx.node = (preorderList doc).filter (isTag "h3") ∧
    (Exercise.scrape_laptops_list doc).length =
      ((preorderList doc).filter (isTag "h3")).length ∧
    (∀ d2, Exercise.primaryCtxs d2 ≠ [] →
      Exercise.scrape_laptops_list d2 = (Exercise.primaryCtxs d2).map Exercise.extractCard) := by
  have hmap : (Exercise.h3Ctxs doc).map Ctx.node = (preorderList doc).filter (isTag "h3") := by
    rw [Exercise.h3Ctxs, docCtxs]
    have e := (List.filter_map (p := isTag "h3") Ctx.node (listCtxs doc [])).symm
    rw [listCtxs_map_node] at e
    rw [← e]
    rfl
  have hsl : Exercise.scrape_laptops_list doc =
      (Exercise.h3Ctxs doc).map Exercise.extractCard := by
    rw [Exercise.scrape_laptops_list, Exercise.cardCtxs]
    simp [h]
  refine ⟨hsl, hmap, ?_, ?_⟩
  · rw [hsl, ← hmap]
    simp
  · intro d2 h2
    have hne : (Exercise.primaryCtxs d2).isEmpty = false := by
      cases hp : Exercise.primaryCtxs d2 with
      | nil => exact absurd hp h2
      | cons a t => rfl
    rw [Exercise.scrape_laptops_list, Exercise.cardCtxs]
    simp [hne]

/-- Witness for claim C7 on a page with two h3 headings and no cards. -/
theorem listing_fallback_per_heading_witness :
    Exercise.scrape_laptops_list twoHeadingsDoc =
      (Exercise.h3Ctxs twoHeadingsDoc).map Exercise.extractCard ∧
    (Exercise.scrape_laptops_list twoHeadingsDoc).length = 2 := by
  have h := listing_fallback_per_heading twoHeadingsDoc rfl
  refine ⟨h.1, ?_⟩
  rw [h.2.2.1]
  rfl

/-! ### Claim theorems: Battery and Weight scans -/

/-- Claim C8: the whole-document Battery and Weight scans always run after
block parsing; each records the entire trimmed text of the first matching
text node under its key, overwriting a same-named key from block parsing
(write order is block parse, then Battery, then Weight), and adds the key
even when block parsing produced nothing; keys other than Battery and
Weight are exactly those of the block parse. -/
theorem battery_weight_scans (doc : Doc) :
    (∀ s, firstTextMatch doc "battery" = some s →
      dlookup (Exercise.extract_specs doc) "Battery" = some (.vstr (pyStrip s))) ∧
    (∀ s, firstTextMatch doc "weight" = some s →
      dlookup (Exercise.extract_specs doc) "Weight" = some (.vstr (pyStrip s))) ∧
    (firstTextMatch doc "battery" = none →
      dlookup (Exercise.extract_specs doc) "Battery" = dlookup (blockSpecs doc) "Battery") ∧
    (firstTextMatch doc "weight" = none →
      dlookup (Exercise.extract_specs doc) "Weight" = dlookup (blockSpecs doc) "Weight") ∧
    (∀ k, k ≠ "Battery" → k ≠ "Weight" →
      dlookup (Exercise.extract_specs doc) k = dlookup (blockSpecs doc) k) := by
  have h1 : ("Battery" : String) ≠ "Weight" := by decide
  refine ⟨?_, ?_, ?_, ?_, ?_⟩
  · intro s hs
    rcases hw : firstTextMatch doc "weight" with _ | ws <;>
      simp [Exercise.extract_specs, hs, hw, dlookup_dinsert, h1]
  · intro s hs
    rcases hb : firstTextMatch doc "battery" with _ | bs <;>
      simp [Exercise.extract_specs, hs, hb, dlookup_dinsert]
  · intro hnone
    rcases hw : firstTextMatch doc "weight" with _ | ws <;>
      simp [Exercise.extract_specs, hnone, hw, dlookup_dinsert, h1]
  · intro hnone
    rcases hb : firstTextMatch doc "battery" with _ | bs <;>
      simp [Exercise.extract_specs, hnone, hb, dlookup_dinsert, Ne.symm h1]
  · intro k hk1 hk2
    rcases hb : firstTextMatch doc "battery" with _ | bs <;>
      rcases hw : firstTextMatch doc "weight" with _ | ws <;>
        simp [Exercise.extract_specs, hb, hw, dlookup_dinsert, hk1, hk2]

/-- Witness for claim C8: on the Battery/Weight page the block parse yields
`56 Wh` under Battery, yet the dedicated scan overwrites it with the whole
text of the first matching node. -/
theorem battery_weight_scans_witness :
    firstTextMatch batteryDoc "battery" = some "Battery: 56 Wh" ∧
    dlookup (blockSpecs batteryDoc) "Battery" = some (Val.vstr "56 Wh") ∧
    dlookup (Exercise.extract_specs batteryDoc) "Battery" =
      some (Val.vstr (pyStrip "Battery: 56 Wh")) :=
  ⟨rfl, rfl, (battery_weight_scans batteryDoc).1 "Battery: 56 Wh" rfl⟩
